import Mathlib

/-!
Shallow embedding of the authentication / session-lifecycle core of the
Transcendence backend (`src/backend/src/auth/...`, `src/backend/src/models.rs`).

Modelling conventions:
* timestamps (`chrono::NaiveDateTime`) are integers (seconds since the Unix
  epoch); the epoch itself is `0`;
* byte strings (`[u8; 32]` token hashes, `Vec<u8>` recovery-code hashes,
  16-byte truncations) are `List Nat`;
* the relational store is a `List` of row structures; diesel's
  `UPDATE ... WHERE` returning an affected-row count is `updateWhere`
  (map the update function over the matching rows, count the matches), and
  `DELETE ... WHERE` is `List.filter` on the negated predicate;
* cryptographic primitives (blake3, argon2, JWT encode/decode, TOTP check)
  are abstract function parameters — the logic around them is embedded
  faithfully, the primitives themselves are opaque.
-/

/-- Byte strings: token hashes, truncated hashes, recovery-code hashes. -/
abbrev Bytes := List Nat

/-- `AuthError` from `src/backend/src/auth/hoops.rs`. -/
inductive AuthError
  | MissingJwtCookie
  | InvalidJwt
  | MissingSessionCookie
  | InvalidSessionToken
  | SessionNotFound
  | SessionMismatch
  | NeedReauth
  | DidLogout
  | InvalidCredentials
  | TwoFactorRequired
  | TwoFactorInvalid
deriving DecidableEq, Repr

/-- Errors surfaced by the 2FA helpers (`ApiError` with its `TwoFa` variant
collapsed to the cases the embedded code distinguishes). -/
inductive ApiErr
  | auth (e : AuthError)
  | twoFaInternal
deriving DecidableEq, Repr

/-- `Session` row from `src/backend/src/models.rs`. -/
structure Session where
  id : Int
  user_id : Int
  token_hash : Bytes
  device_id : String
  device_name : Option String
  ip_address : Option String
  created_at : Int
  refreshed_at : Int
  last_used_at : Int
  last_authenticated_at : Int
deriving DecidableEq, Repr

/-- `diesel::update(table.filter(pred)).set(f).execute(conn)`: apply `f` to
every row matching `pred`, return the new table and the affected-row count. -/
def updateWhere (pred : α → Bool) (f : α → α) (l : List α) : List α × Nat :=
  (l.map fun x => if pred x then f x else x, (l.filter pred).length)

/-- `SESSION_EXPIRY` (`Duration::from_hours(7 * 24)`), in seconds. -/
def SESSION_EXPIRY : Nat := 7 * 24 * 60 * 60

/-- `SESSION_FORCED_EXPIRY` (`Duration::from_hours(30 * 24)`), in seconds. -/
def SESSION_FORCED_EXPIRY : Nat := 30 * 24 * 60 * 60

/-- `MAX_SESSIONS_PER_USER` from `src/backend/src/auth/mod.rs`. -/
def MAX_SESSIONS_PER_USER : Nat := 10

/-- `duration_cutoff` from `src/backend/src/auth/hoops.rs`. -/
def duration_cutoff (now : Int) (d : Nat) : Int :=
  now - (d : Int)

/-- `session_requires_reauth` from `src/backend/src/auth/hoops.rs`. -/
def session_requires_reauth (session : Session) (now : Int) : Bool :=
  let rolling_cutoff := duration_cutoff now SESSION_EXPIRY
  let forced_cutoff := duration_cutoff now SESSION_FORCED_EXPIRY
  decide (session.refreshed_at ≤ rolling_cutoff)
    || decide (session.last_authenticated_at ≤ forced_cutoff)

/-- `Session::rotate` from `src/backend/src/models.rs` (its internal
`chrono::Utc::now()` read is the explicit `now` argument). -/
def Session.rotate (s : Session) (token_hash : Bytes) (device_id : String)
    (device_name ip_address : Option String) (now : Int) : Session :=
  { id := s.id
    user_id := s.user_id
    token_hash := token_hash
    device_id := device_id
    device_name := device_name.or s.device_name
    ip_address := ip_address.or s.ip_address
    created_at := s.created_at
    refreshed_at := now
    last_used_at := now
    last_authenticated_at := s.last_authenticated_at }

/-- The row mutation performed by `rotate_session::<DO_REAUTH>` in
`src/backend/src/auth/router.rs` before the conditional UPDATE:
`session.rotate(...)` followed by `rotated.last_authenticated_at = now`
when `DO_REAUTH`. -/
def applyRotate (doReauth : Bool) (s : Session) (token_hash : Bytes)
    (device_id : String) (device_name ip_address : Option String)
    (now : Int) : Session :=
  let rotated := s.rotate token_hash device_id device_name ip_address now
  if doReauth then { rotated with last_authenticated_at := now } else rotated

/-- `rotate_session` guard predicate: the WHERE clause of its conditional
UPDATE (`id = session.id AND token_hash = session.token_hash`, the hash the
caller believes is current). -/
def rotateGuard (session : Session) (r : Session) : Bool :=
  r.id == session.id && r.token_hash == session.token_hash

/-- Result of `rotate_session`: the table after the conditional UPDATE, the
affected-row count, the function result, and the cookies added to the
response (session-token cookie and JWT cookie, issued only on success). -/
structure RotateOutcome where
  db : List Session
  updated : Nat
  result : Except AuthError Session
  cookies : Option (Bytes × String)
deriving Repr

/-- `rotate_session::<DO_REAUTH>` from `src/backend/src/auth/router.rs`.
`token` is the freshly generated `SessionToken` (the random draw made
explicit), `h3` is the blake3-based `SessionToken::to_hash`, `jwtCreate` is
`util::jwt_create` (opaque JWT encoding). The UPDATE is guarded by
`id = session.id AND token_hash = session.token_hash`; if it does not affect
exactly one row the rotation fails with `SessionMismatch` and no cookies are
set. -/
def rotate_session (doReauth : Bool) (h3 : Bytes → Bytes)
    (jwtCreate : Session → Bytes → String) (db : List Session)
    (session : Session) (token : Bytes) (device_id : String)
    (device_name ip_address : Option String) (now : Int) : RotateOutcome :=
  let hashed_token := h3 token
  let rotated :=
    applyRotate doReauth session hashed_token device_id device_name
      ip_address now
  let upd := updateWhere (rotateGuard session) (fun _ => rotated) db
  if upd.2 ≠ 1 then
    { db := upd.1, updated := upd.2, result := .error .SessionMismatch,
      cookies := none }
  else
    { db := upd.1, updated := upd.2, result := .ok rotated,
      cookies := some (token, jwtCreate rotated (hashed_token.take 16)) }

/-- `NewSession::new` from `src/backend/src/models.rs`, combined with the
insert-returning row (the generated id made explicit): every timestamp of a
freshly created session is `now`. -/
def newSession (sid : Int) (user_id : Int) (token_hash : Bytes)
    (device_id : String) (device_name ip_address : Option String)
    (now : Int) : Session :=
  { id := sid
    user_id := user_id
    token_hash := token_hash
    device_id := device_id
    device_name := device_name
    ip_address := ip_address
    created_at := now
    refreshed_at := now
    last_used_at := now
    last_authenticated_at := now }

theorem updateWhere_snd_eq_zero {pred : α → Bool} {f : α → α} {l : List α}
    (h : ∀ x ∈ l, pred x ≠ true) : (updateWhere pred f l).2 = 0 := by
  simp only [updateWhere, List.length_eq_zero, List.filter_eq_nil_iff]
  exact fun a ha hpa => h a ha hpa

theorem mem_updateWhere_fst {pred : α → Bool} {f : α → α} {l : List α}
    {x : α} (hx : x ∈ (updateWhere pred f l).1) :
    (∃ y ∈ l, pred y = true ∧ x = f y) ∨ (x ∈ l ∧ pred x = false) := by
  simp only [updateWhere, List.mem_map] at hx
  obtain ⟨y, hy, hxy⟩ := hx
  by_cases hp : pred y = true
  · exact Or.inl ⟨y, hy, hp, by rw [← hxy, if_pos hp]⟩
  · rw [if_neg hp] at hxy
    subst hxy
    exact Or.inr ⟨hy, Bool.eq_false_iff.mpr hp⟩

theorem updateWhere_filter_untouched {pred q : α → Bool} {f : α → α}
    (l : List α) (h1 : ∀ x, q x = true → pred x = false)
    (h2 : ∀ x, pred x = true → q (f x) = false) :
    (updateWhere pred f l).1.filter q = l.filter q := by
  simp only [updateWhere]
  induction l with
  | nil => rfl
  | cons a l ih =>
    simp only [List.map_cons, List.filter_cons]
    by_cases hp : pred a = true
    · have hqa : q a = false := by
        cases hqa : q a
        · rfl
        · exact absurd (h1 a hqa) (by simp [hp])
      rw [if_pos hp, h2 a hp, hqa, ih]
      simp
    · rw [if_neg hp, ih]

/-- C2: for every session and time `now`, `session_requires_reauth` is true
iff `now - refreshed_at ≥ 7` days or `now - last_authenticated_at ≥ 30`
days, with equality at the cutoff counting as expired. -/
theorem session_requires_reauth_iff (s : Session) (now : Int) :
    session_requires_reauth s now = true ↔
      (7 * 24 * 60 * 60 ≤ now - s.refreshed_at
        ∨ 30 * 24 * 60 * 60 ≤ now - s.last_authenticated_at) := by
  simp only [session_requires_reauth, duration_cutoff, SESSION_EXPIRY,
    SESSION_FORCED_EXPIRY, Bool.or_eq_true, decide_eq_true_eq]
  omega

theorem rotate_session_updated_eq (doReauth : Bool) (h3 : Bytes → Bytes)
    (jwtCreate : Session → Bytes → String) (db : List Session)
    (session : Session) (token : Bytes) (device_id : String)
    (device_name ip_address : Option String) (now : Int) :
    (rotate_session doReauth h3 jwtCreate db session token device_id
        device_name ip_address now).updated
      = (db.filter (rotateGuard session)).length := by
  simp only [rotate_session]
  split <;> rfl

/-- C1: when the conditional UPDATE guarded by the session id and the
previously-known token hash affects 0 rows, the rotation fails with
`SessionMismatch` and no session/access-token cookies are issued; a rotation
attempted with a stale (already-superseded) token hash never succeeds. -/
theorem rotate_session_stale_never_succeeds (doReauth : Bool)
    (h3 : Bytes → Bytes) (jwtCreate : Session → Bytes → String)
    (db : List Session) (session : Session) (token : Bytes)
    (device_id : String) (device_name ip_address : Option String)
    (now : Int) (o : RotateOutcome)
    (ho : rotate_session doReauth h3 jwtCreate db session token device_id
        device_name ip_address now = o) :
    (o.updated = 0 →
      o.result = .error .SessionMismatch ∧ o.cookies = none) ∧
    ((∀ r ∈ db, r.id = session.id → r.token_hash ≠ session.token_hash) →
      o.updated = 0 ∧ o.result = .error .SessionMismatch ∧
        o.cookies = none) := by
  subst ho
  have hupd := rotate_session_updated_eq doReauth h3 jwtCreate db session
    token device_id device_name ip_address now
  constructor
  · intro h0
    rw [hupd] at h0
    simp only [rotate_session]
    rw [if_pos (by simp only [updateWhere]; omega)]
    exact ⟨rfl, rfl⟩
  · intro hall
    have hz : (db.filter (rotateGuard session)).length = 0 := by
      rw [List.length_eq_zero, List.filter_eq_nil_iff]
      intro r hr hpr
      simp only [rotateGuard, Bool.and_eq_true, beq_iff_eq] at hpr
      exact hall r hr hpr.1 hpr.2
    refine ⟨by rw [hupd, hz], ?_⟩
    simp only [rotate_session]
    rw [if_pos (by simp only [updateWhere]; omega)]
    exact ⟨rfl, rfl⟩

def c1Stored : Session := newSession 1 7 [5] "d" none none 50

def c1Stale : Session := { c1Stored with token_hash := [6] }

/-- Witness for C1: a concrete one-row table where the caller holds a stale
hash; the rotation reports `SessionMismatch` and issues no cookies. -/
theorem rotate_session_stale_never_succeeds_witness :
    (rotate_session false (fun _ => [9]) (fun _ _ => "t") [c1Stored] c1Stale
        [3] "d" none none 500).result = .error .SessionMismatch ∧
    (rotate_session false (fun _ => [9]) (fun _ _ => "t") [c1Stored] c1Stale
        [3] "d" none none 500).cookies = none := by
  have h := rotate_session_stale_never_succeeds false (fun _ => [9])
    (fun _ _ => "t") [c1Stored] c1Stale [3] "d" none none 500 _ rfl
  have hs := h.2 (by
    intro r hr hid
    rw [List.mem_singleton] at hr
    subst hr
    decide)
  exact ⟨hs.2.1, hs.2.2⟩

def c6Register : Session := newSession 1 7 [0] "dev" none none 100

def c6Login : Session := applyRotate true c6Register [1] "dev" none none 200

def c6R1 : Session := applyRotate false c6Login [2] "dev" none none 210

def c6R2 : Session := applyRotate false c6R1 [3] "dev" none none 220

def c6R3 : Session := applyRotate false c6R2 [4] "dev" none none 230

def c6R4 : Session := applyRotate false c6R3 [5] "dev" none none 240

def c6R5 : Session := applyRotate false c6R4 [6] "dev" none none 250

def c6Final : Session := applyRotate true c6R5 [7] "dev" none none 300

/-- C6: every successful rotation keeps `id`, `user_id`, `created_at`,
replaces the token hash, sets `refreshed_at` and `last_used_at` to `now`;
a refresh-rotate leaves `last_authenticated_at` unchanged while a
reauth-rotate sets it to `now`. In the register → login → five
refresh-rotates → reauth-rotate run, `last_authenticated_at` changes only at
login and at the final reauth-rotate. -/
theorem rotate_session_success_frame (doReauth : Bool) (h3 : Bytes → Bytes)
    (jwtCreate : Session → Bytes → String) (db : List Session)
    (session : Session) (token : Bytes) (device_id : String)
    (device_name ip_address : Option String) (now : Int) (o : RotateOutcome)
    (ho : rotate_session doReauth h3 jwtCreate db session token device_id
        device_name ip_address now = o)
    (s' : Session) (hok : o.result = .ok s') :
    (s'.id = session.id ∧ s'.user_id = session.user_id ∧
      s'.created_at = session.created_at ∧ s'.token_hash = h3 token ∧
      s'.refreshed_at = now ∧ s'.last_used_at = now ∧
      (doReauth = false →
        s'.last_authenticated_at = session.last_authenticated_at) ∧
      (doReauth = true → s'.last_authenticated_at = now)) ∧
    (c6Register.last_authenticated_at = 100 ∧
      c6Login.last_authenticated_at = 200 ∧
      c6R1.last_authenticated_at = 200 ∧ c6R2.last_authenticated_at = 200 ∧
      c6R3.last_authenticated_at = 200 ∧ c6R4.last_authenticated_at = 200 ∧
      c6R5.last_authenticated_at = 200 ∧
      c6Final.last_authenticated_at = 300) := by
  subst ho
  simp only [rotate_session] at hok
  constructor
  · split at hok
    · simp at hok
    · simp only [Except.ok.injEq] at hok
      subst hok
      cases doReauth <;>
        simp [applyRotate, Session.rotate]
  · exact ⟨rfl, rfl, rfl, rfl, rfl, rfl, rfl, rfl⟩

def c6wSess : Session := newSession 1 7 [5] "d" none none 50

/-- Witness for C6: a concrete successful refresh-rotate sets
`refreshed_at` to the rotation time and keeps `last_authenticated_at`. -/
theorem rotate_session_success_frame_witness :
    (applyRotate false c6wSess [9] "d" none none 500).refreshed_at = 500 ∧
    (applyRotate false c6wSess [9] "d" none none 500).last_authenticated_at
      = c6wSess.last_authenticated_at := by
  have h := rotate_session_success_frame false (fun _ => [9])
    (fun _ _ => "t") [c6wSess] c6wSess [3] "d" none none 500 _ rfl
    (applyRotate false c6wSess [9] "d" none none 500) rfl
  exact ⟨h.1.2.2.2.2.1, h.1.2.2.2.2.2.2.1 rfl⟩

/-- `JwtClaims` from `src/backend/src/auth/mod.rs`: `jti` is the 16-byte
truncated session-token hash. -/
structure JwtClaims where
  sub : Int
  sid : Int
  jti : Bytes
  exp : Nat
  iat : Nat
deriving DecidableEq, Repr

/-- `PartialEq<SessionTokenHashTruncated> for SessionTokenHash` from
`src/backend/src/auth/session_token.rs`: only the first 16 bytes of the full
hash are compared against the truncation. -/
def hashEqTruncated (hash trunc : Bytes) : Bool :=
  hash.take 16 == trunc

/-- `access_hoop`'s inner function from `src/backend/src/auth/hoops.rs`.
`decode` is `jsonwebtoken::decode` with the process key: it verifies the
signature and expiry and yields the claims, `none` covering every decode
failure. The session row is then loaded by the claim's `sid` and
cross-checked against `sub` and `jti`. -/
def access_hoop (db : List Session) (cookie : Option String)
    (decode : String → Option JwtClaims) (now : Int) :
    Except AuthError Session :=
  match cookie with
  | none => .error .MissingJwtCookie
  | some jwt_token =>
    match decode jwt_token with
    | none => .error .InvalidJwt
    | some claims =>
      match db.find? (fun s => s.id == claims.sid) with
      | none => .error .SessionNotFound
      | some session =>
        if session.user_id != claims.sub then .error .SessionMismatch
        else if !(hashEqTruncated session.token_hash claims.jti) then
          .error .SessionMismatch
        else if session_requires_reauth session now then .error .NeedReauth
        else .ok session

/-- C3: once the JWT decodes and the session row is loaded by the claim's
session id, validation fails with `SessionMismatch` whenever the row's
`user_id` differs from `sub` or the first 16 bytes of the row's token hash
differ from `jti`, and an authenticated identity is produced only when both
match. -/
theorem access_hoop_cross_check (db : List Session) (cookie : Option String)
    (decode : String → Option JwtClaims) (now : Int) (jwt_token : String)
    (claims : JwtClaims) (session : Session)
    (hc : cookie = some jwt_token) (hd : decode jwt_token = some claims)
    (hs : db.find? (fun s => s.id == claims.sid) = some session) :
    ((session.user_id ≠ claims.sub ∨ session.token_hash.take 16 ≠ claims.jti) →
      access_hoop db cookie decode now = .error .SessionMismatch) ∧
    (∀ s', access_hoop db cookie decode now = .ok s' →
      s' = session ∧ session.user_id = claims.sub ∧
        session.token_hash.take 16 = claims.jti) := by
  subst hc
  constructor
  · intro hmis
    simp only [access_hoop, hd, hs]
    by_cases hu : session.user_id = claims.sub
    · have hh : session.token_hash.take 16 ≠ claims.jti := by
        rcases hmis with h | h
        · exact absurd hu h
        · exact h
      rw [if_neg (by simp [hu]), if_pos (by simp [hashEqTruncated, hh])]
    · rw [if_pos (by simp [hu])]
  · intro s' hok
    simp only [access_hoop, hd, hs] at hok
    by_cases hu : session.user_id = claims.sub
    · by_cases hh : session.token_hash.take 16 = claims.jti
      · rw [if_neg (by simp [hu]),
          if_neg (by simp [hashEqTruncated, hh])] at hok
        split at hok
        · simp at hok
        · simp only [Except.ok.injEq] at hok
          exact ⟨hok.symm, hu, hh⟩
      · rw [if_neg (by simp [hu]),
          if_pos (by simp [hashEqTruncated, hh])] at hok
        simp at hok
    · rw [if_pos (by simp [hu])] at hok
      simp at hok

def c3Session : Session := newSession 1 7 [5] "d" none none 50

def c3Claims : JwtClaims := { sub := 8, sid := 1, jti := [5], exp := 0, iat := 0 }

/-- Witness for C3: a decoded claim whose subject differs from the loaded
row's owner is rejected with `SessionMismatch`. -/
theorem access_hoop_cross_check_witness :
    access_hoop [c3Session] (some "jwt") (fun _ => some c3Claims) 60
      = .error .SessionMismatch :=
  (access_hoop_cross_check [c3Session] (some "jwt") (fun _ => some c3Claims)
      60 "jwt" c3Claims c3Session rfl rfl rfl).1 (Or.inl (by decide))

/-- `argon2::password_hash::Error`, collapsed to the two outcomes the
embedded code distinguishes: a hash-parsing failure (`PasswordHash::new`)
and `Error::Password` (wrong password). -/
inductive PwErr
  | parse
  | password
deriving DecidableEq, Repr

/-- `verify_password` from `src/backend/src/auth/util.rs`. `parses` is
`PasswordHash::new` succeeding on a stored PHC string, `verifies` is
`Argon2::verify_password` succeeding, `dummyHash` is the process-wide
`RANDOM_PASSWORD_HASH` (hashed once at first use). When no stored hash is
given, verification still runs against the dummy hash and the result is
forced to `Error::Password`. -/
def verify_password (parses : String → Bool)
    (verifies : String → String → Bool) (dummyHash : String)
    (password : String) (password_hash : Option String) :
    Except PwErr Unit :=
  let hashStr := password_hash.getD dummyHash
  if parses hashStr then
    let res : Except PwErr Unit :=
      if verifies password hashStr then .ok () else .error .password
    match password_hash with
    | some _ => res
    | none => .error .password
  else
    .error .parse

/-- C4: for every valid (password, stored-hash) pair verification succeeds
iff the password matches, and with no stored hash it deterministically
returns the wrong-password failure (the check runs against the fixed dummy
hash but its outcome is forced to `Error::Password`). -/
theorem verify_password_spec (parses : String → Bool)
    (verifies : String → String → Bool) (dummyHash password h : String)
    (hparse : parses h = true) (hdummy : parses dummyHash = true) :
    (verify_password parses verifies dummyHash password (some h) = .ok () ↔
      verifies password h = true) ∧
    verify_password parses verifies dummyHash password none
      = .error .password := by
  constructor
  · simp only [verify_password, Option.getD_some, hparse, if_true]
    split
    · next hv => simp [hv]
    · next hv => simp [hv]
  · simp only [verify_password, Option.getD_none, hdummy, if_true]

/-- Witness for C4: with a concrete matcher, a matching pair verifies and a
missing stored hash yields the wrong-password failure. -/
theorem verify_password_spec_witness :
    verify_password (fun _ => true) (fun p h => p == h) "dummy" "pw"
        (some "pw") = .ok () ∧
    verify_password (fun _ => true) (fun p h => p == h) "dummy" "pw" none
      = .error .password :=
  ⟨(verify_password_spec (fun _ => true) (fun p h => p == h) "dummy" "pw"
      "pw" rfl rfl).1.mpr (by decide),
   (verify_password_spec (fun _ => true) (fun p h => p == h) "dummy" "pw"
      "pw" rfl rfl).2⟩

/-- `deauth_sessions`' UPDATE guard from `src/backend/src/auth/user.rs`:
`user_id = target_user AND id IN session_ids`. -/
def deauthGuard (target_user : Int) (session_ids : List Int)
    (s : Session) : Bool :=
  s.user_id == target_user && session_ids.contains s.id

/-- `deauth_sessions` from `src/backend/src/auth/user.rs`: set
`last_authenticated_at` to the Unix epoch (0) on the caller's targeted
sessions, returning the affected-row count. -/
def deauth_sessions (db : List Session) (target_user : Int)
    (session_ids : List Int) : List Session × Nat :=
  updateWhere (deauthGuard target_user session_ids)
    (fun s => { s with last_authenticated_at := 0 }) db

/-- The DELETE of `delete_sessions` from `src/backend/src/auth/user.rs`:
remove the rows with `user_id = target_user AND id IN session_ids`,
returning the affected-row count. -/
def delete_sessions_db (db : List Session) (target_user : Int)
    (session_ids : List Int) : List Session × Nat :=
  ((db.filter fun s => !(deauthGuard target_user session_ids s)),
    (db.filter fun s => deauthGuard target_user session_ids s).length)

/-- `session_hoop_inner::<NO_PENDING_REAUTH>` from
`src/backend/src/auth/router.rs`. `decode` is `SessionToken::try_from` on
the cookie value (`none` covering base64/length failures), `h3` is
`SessionToken::to_hash`; the session row is loaded by its full token hash
and, when `NO_PENDING_REAUTH`, rejected with `NeedReauth` if
`session_requires_reauth` holds. -/
def session_hoop_inner (noPendingReauth : Bool) (h3 : Bytes → Bytes)
    (db : List Session) (cookie : Option String)
    (decode : String → Option Bytes) (now : Int) :
    Except AuthError Session :=
  match cookie with
  | none => .error .MissingSessionCookie
  | some v =>
    match decode v with
    | none => .error .InvalidSessionToken
    | some session_token =>
      match db.find? (fun s => s.token_hash == h3 session_token) with
      | none => .error .SessionNotFound
      | some session =>
        if noPendingReauth && session_requires_reauth session now then
          .error .NeedReauth
        else .ok session

/-- C8: logout / administrative removal sets the targeted sessions'
`last_authenticated_at` to the epoch without deleting the rows, and any
subsequent refresh-rotate attempt on such a session is rejected by the
reauth check of the session hoop (for any real `now`, i.e. at least 30 days
past the epoch). -/
theorem deauth_then_refresh_needs_reauth (h3 : Bytes → Bytes)
    (decode : String → Option Bytes) (db : List Session) (uid : Int)
    (ids : List Int) (now : Int) (v : String) (token : Bytes) (s' : Session)
    (hnow : (2592000 : Int) ≤ now)
    (hdec : decode v = some token)
    (hfind : (deauth_sessions db uid ids).1.find?
        (fun s => s.token_hash == h3 token) = some s')
    (huser : s'.user_id = uid) (hid : s'.id ∈ ids) :
    s'.last_authenticated_at = 0 ∧
    session_hoop_inner true h3 (deauth_sessions db uid ids).1 (some v)
        decode now = .error .NeedReauth := by
  have hmem : s' ∈ (deauth_sessions db uid ids).1 :=
    List.mem_of_find?_eq_some hfind
  have hlast : s'.last_authenticated_at = 0 := by
    rcases mem_updateWhere_fst hmem with ⟨y, _, _, hxy⟩ | ⟨_, hps'⟩
    · subst hxy; rfl
    · exfalso
      simp only [deauthGuard] at hps'
      rw [Bool.and_eq_false_iff] at hps'
      rcases hps' with h | h
      · rw [beq_eq_false_iff_ne] at h; exact h huser
      · exact absurd hid (by simpa using h)
  refine ⟨hlast, ?_⟩
  have hreq : session_requires_reauth s' now = true := by
    simp only [session_requires_reauth, duration_cutoff,
      SESSION_FORCED_EXPIRY, Bool.or_eq_true, decide_eq_true_eq]
    right
    omega
  simp only [session_hoop_inner, hdec, hfind]
  rw [if_pos (by simp [hreq])]

def c8Before : Session := newSession 1 7 [5] "d" none none 100

/-- Witness for C8: after deauthing session 1 of user 7, the session hoop
rejects the refresh path with `NeedReauth`. -/
theorem deauth_then_refresh_needs_reauth_witness :
    ({ c8Before with last_authenticated_at := 0 } :
        Session).last_authenticated_at = 0 ∧
    session_hoop_inner true (fun _ => [5]) (deauth_sessions [c8Before] 7 [1]).1
        (some "cookie") (fun _ => some [3]) 2592000 = .error .NeedReauth :=
  deauth_then_refresh_needs_reauth (fun _ => [5]) (fun _ => some [3])
    [c8Before] 7 [1] 2592000 "cookie" [3]
    { c8Before with last_authenticated_at := 0 }
    (by omega) rfl rfl rfl (by decide)

theorem filter_filter_of_imp {p q : α → Bool} (l : List α)
    (h : ∀ x, q x = true → p x = true) :
    (l.filter p).filter q = l.filter q := by
  induction l with
  | nil => rfl
  | cons a l ih =>
    simp only [List.filter_cons]
    by_cases hq : q a = true
    · rw [h a hq]
      simp [hq, ih]
    · by_cases hp : p a = true
      · simp [hp, hq, ih]
      · simp [hp, hq, ih]

/-- C10: logout-sessions and delete-sessions touch only rows owned by the
authenticated caller: for any supplied id set, the sessions of every other
user are exactly preserved, because both statements also filter on the
caller's `user_id`. -/
theorem other_users_sessions_untouched (db : List Session) (caller : Int)
    (session_ids : List Int) :
    (deauth_sessions db caller session_ids).1.filter
        (fun s => !(s.user_id == caller))
      = db.filter (fun s => !(s.user_id == caller)) ∧
    (delete_sessions_db db caller session_ids).1.filter
        (fun s => !(s.user_id == caller))
      = db.filter (fun s => !(s.user_id == caller)) := by
  constructor
  · apply updateWhere_filter_untouched
    · intro x hq
      simp only [Bool.not_eq_true', beq_eq_false_iff_ne] at hq
      simp [deauthGuard, hq]
    · intro x hp
      simp only [deauthGuard, Bool.and_eq_true, beq_iff_eq] at hp
      simp [hp.1]
  · apply filter_filter_of_imp
    intro x hq
    simp only [Bool.not_eq_true', beq_eq_false_iff_ne] at hq
    simp [deauthGuard, hq]

/-- `TwoFaRecoveryCode` row from `src/backend/src/models.rs`. -/
structure RecoveryRow where
  id : Int
  user_id : Int
  code_hash : Bytes
  used_at : Option Int
  created_at : Int
deriving DecidableEq, Repr

/-- `consume_recovery_code`'s UPDATE guard from
`src/backend/src/auth/two_factor.rs`:
`user_id = ? AND code_hash = ? AND used_at IS NULL`. -/
def recoveryGuard (user_id_val : Int) (hash : Bytes)
    (r : RecoveryRow) : Bool :=
  r.user_id == user_id_val && r.code_hash == hash && r.used_at.isNone

/-- `consume_recovery_code` from `src/backend/src/auth/two_factor.rs`:
hash the submitted code (`h3s` is `hash_recovery_code`, blake3), set
`used_at = now` on the matching unused rows, and report success exactly when
one row was affected. -/
def consume_recovery_code (h3s : String → Bytes) (db : List RecoveryRow)
    (user_id_val : Int) (code_plain : String) (now : Int) :
    Bool × List RecoveryRow :=
  let hash := h3s code_plain
  let upd := updateWhere (recoveryGuard user_id_val hash)
    (fun r => { r with used_at := some now }) db
  (upd.2 == 1, upd.1)

/-- An arbitrary interleaving of later consumption attempts
(user id, code, time). -/
def runConsumes (h3s : String → Bytes) (db : List RecoveryRow) :
    List (Int × String × Int) → List RecoveryRow
  | [] => db
  | (uid, code, t) :: ops =>
    runConsumes h3s (consume_recovery_code h3s db uid code t).2 ops

theorem no_null_row_after_consume (h3s : String → Bytes)
    (db : List RecoveryRow) (uid : Int) (code : String) (now : Int) :
    ∀ r ∈ (consume_recovery_code h3s db uid code now).2,
      ¬(r.user_id = uid ∧ r.code_hash = h3s code ∧ r.used_at = none) := by
  intro r hr hc
  rcases mem_updateWhere_fst hr with ⟨y, _, _, hxy⟩ | ⟨_, hpr⟩
  · subst hxy
    exact Option.noConfusion hc.2.2
  · simp only [recoveryGuard, Bool.and_eq_false_iff, beq_eq_false_iff_ne]
      at hpr
    rcases hpr with (h | h) | h
    · exact h hc.1
    · exact h hc.2.1
    · rw [hc.2.2] at h
      exact Bool.noConfusion h

theorem no_null_row_preserved (h3s : String → Bytes) (uid : Int)
    (hash : Bytes) (db : List RecoveryRow)
    (h : ∀ r ∈ db, ¬(r.user_id = uid ∧ r.code_hash = hash ∧ r.used_at = none))
    (uid' : Int) (code' : String) (t' : Int) :
    ∀ r ∈ (consume_recovery_code h3s db uid' code' t').2,
      ¬(r.user_id = uid ∧ r.code_hash = hash ∧ r.used_at = none) := by
  intro r hr hc
  rcases mem_updateWhere_fst hr with ⟨y, _, _, hxy⟩ | ⟨hrdb, _⟩
  · subst hxy
    exact Option.noConfusion hc.2.2
  · exact h r hrdb hc

theorem no_null_row_run_preserved (h3s : String → Bytes) (uid : Int)
    (hash : Bytes) (ops : List (Int × String × Int)) :
    ∀ db : List RecoveryRow,
      (∀ r ∈ db, ¬(r.user_id = uid ∧ r.code_hash = hash ∧ r.used_at = none)) →
      ∀ r ∈ runConsumes h3s db ops,
        ¬(r.user_id = uid ∧ r.code_hash = hash ∧ r.used_at = none) := by
  induction ops with
  | nil => intro db h; exact h
  | cons op ops ih =>
    intro db h
    obtain ⟨uid', code', t'⟩ := op
    exact ih _ (no_null_row_preserved h3s uid hash db h uid' code' t')

theorem consume_fails_of_no_null (h3s : String → Bytes)
    (db : List RecoveryRow) (uid : Int) (code : String) (now : Int)
    (h : ∀ r ∈ db,
      ¬(r.user_id = uid ∧ r.code_hash = h3s code ∧ r.used_at = none)) :
    (consume_recovery_code h3s db uid code now).1 = false := by
  have hz : (updateWhere (recoveryGuard uid (h3s code))
      (fun r => { r with used_at := some now }) db).2 = 0 := by
    apply updateWhere_snd_eq_zero
    intro x hx hpx
    simp only [recoveryGuard, Bool.and_eq_true, beq_iff_eq,
      Option.isNone_iff_eq_none] at hpx
    exact h x hx ⟨hpx.1.1, hpx.1.2, hpx.2⟩
  simp [consume_recovery_code, hz]

/-- C5: consuming a recovery code is a conditional update on the rows
matching the code's hash with `used_at` still NULL, and it succeeds exactly
when one row is affected; once consumed, no later consumption of the same
code — after arbitrary intervening consumption attempts — ever succeeds
again. -/
theorem recovery_code_consumed_at_most_once (h3s : String → Bytes)
    (db : List RecoveryRow) (uid : Int) (code : String) (now now' : Int)
    (ops : List (Int × String × Int)) :
    ((consume_recovery_code h3s db uid code now).1 = true ↔
      (db.filter (recoveryGuard uid (h3s code))).length = 1) ∧
    (consume_recovery_code h3s
        (runConsumes h3s (consume_recovery_code h3s db uid code now).2 ops)
        uid code now').1 = false := by
  constructor
  · simp [consume_recovery_code, updateWhere]
  · exact consume_fails_of_no_null h3s _ uid code now'
      (no_null_row_run_preserved h3s uid (h3s code) ops _
        (no_null_row_after_consume h3s db uid code now))

/-- The slice of the `User` row that `require_mfa_if_enabled` consults
directly (the 2FA secret fields are folded into the abstract TOTP check). -/
structure UserMfa where
  id : Int
  totp_enabled : Bool
deriving DecidableEq, Repr

/-- `looks_like_totp_code` from `src/backend/src/auth/two_factor.rs`:
6 to 8 ASCII digits. -/
def looks_like_totp_code (code : String) : Bool :=
  let len := code.length
  (decide (6 ≤ len) && decide (len ≤ 8)) && code.toList.all Char.isDigit

/-- `require_mfa_if_enabled` from `src/backend/src/auth/two_factor.rs`.
`totpCheck` is `check_totp_code user` (decrypt the stored secret and check
the current TOTP window; errors model its internal failures), `h3s` is
`hash_recovery_code`. A missing or trimmed-empty code fails with
`TwoFactorRequired`; a digits-shaped code tries TOTP then recovery, any
other code tries recovery then TOTP; only after both checks fail does it
return `TwoFactorInvalid`. -/
def require_mfa_if_enabled (totpCheck : String → Except ApiErr Bool)
    (h3s : String → Bytes) (db : List RecoveryRow) (user : UserMfa)
    (now : Int) (mfa_code : Option String) :
    Except ApiErr Unit × List RecoveryRow :=
  if !user.totp_enabled then (.ok (), db)
  else
    match (mfa_code.map String.trim).filter (fun s => !s.isEmpty) with
    | none => (.error (.auth .TwoFactorRequired), db)
    | some code =>
      if looks_like_totp_code code then
        match totpCheck code with
        | .error e => (.error e, db)
        | .ok true => (.ok (), db)
        | .ok false =>
          let c := consume_recovery_code h3s db user.id code now
          if c.1 then (.ok (), c.2)
          else (.error (.auth .TwoFactorInvalid), c.2)
      else
        let c := consume_recovery_code h3s db user.id code now
        if c.1 then (.ok (), c.2)
        else
          match totpCheck code with
          | .error e => (.error e, c.2)
          | .ok true => (.ok (), c.2)
          | .ok false => (.error (.auth .TwoFactorInvalid), c.2)

/-- C7: with 2FA enabled, a missing or trimmed-empty code fails with
`TwoFactorRequired`; a code of 6–8 ASCII digits is checked as TOTP first
and, on failure, as a recovery code; any other code is checked as a
recovery code first and, on failure, as TOTP; verification succeeds when
either check on its path succeeds and fails with `TwoFactorInvalid` only
after both fail. -/
theorem require_mfa_flow (totpCheck : String → Except ApiErr Bool)
    (h3s : String → Bytes) (db : List RecoveryRow) (user : UserMfa)
    (now : Int) (mfa_code : Option String)
    (henabled : user.totp_enabled = true) :
    ((mfa_code.map String.trim).filter (fun s => !s.isEmpty) = none →
      require_mfa_if_enabled totpCheck h3s db user now mfa_code
        = (.error (.auth .TwoFactorRequired), db)) ∧
    (∀ code,
      (mfa_code.map String.trim).filter (fun s => !s.isEmpty) = some code →
      (looks_like_totp_code code = true →
        (totpCheck code = .ok true →
          require_mfa_if_enabled totpCheck h3s db user now mfa_code
            = (.ok (), db)) ∧
        (totpCheck code = .ok false →
          ((consume_recovery_code h3s db user.id code now).1 = true →
            (require_mfa_if_enabled totpCheck h3s db user now mfa_code).1
              = .ok ()) ∧
          ((consume_recovery_code h3s db user.id code now).1 = false →
            (require_mfa_if_enabled totpCheck h3s db user now mfa_code).1
              = .error (.auth .TwoFactorInvalid)))) ∧
      (looks_like_totp_code code = false →
        ((consume_recovery_code h3s db user.id code now).1 = true →
          (require_mfa_if_enabled totpCheck h3s db user now mfa_code).1
            = .ok ()) ∧
        ((consume_recovery_code h3s db user.id code now).1 = false →
          (totpCheck code = .ok true →
            (require_mfa_if_enabled totpCheck h3s db user now mfa_code).1
              = .ok ()) ∧
          (totpCheck code = .ok false →
            (require_mfa_if_enabled totpCheck h3s db user now mfa_code).1
              = .error (.auth .TwoFactorInvalid))))) := by
  constructor
  · intro hnone
    simp [require_mfa_if_enabled, henabled, hnone]
  · intro code hcode
    constructor
    · intro hlooks
      constructor
      · intro htot
        simp [require_mfa_if_enabled, henabled, hcode, hlooks, htot]
      · intro htot
        constructor
        · intro hcons
          simp [require_mfa_if_enabled, henabled, hcode, hlooks, htot, hcons]
        · intro hcons
          simp [require_mfa_if_enabled, henabled, hcode, hlooks, htot, hcons]
    · intro hlooks
      constructor
      · intro hcons
        simp [require_mfa_if_enabled, henabled, hcode, hlooks, hcons]
      · intro hcons
        constructor
        · intro htot
          simp [require_mfa_if_enabled, henabled, hcode, hlooks, hcons, htot]
        · intro htot
          simp [require_mfa_if_enabled, henabled, hcode, hlooks, hcons, htot]

/-- Witness for C7: with 2FA enabled and no code submitted, the check fails
with `TwoFactorRequired`. -/
theorem require_mfa_flow_witness :
    require_mfa_if_enabled (fun _ => .ok false) (fun _ => [1]) []
        { id := 7, totp_enabled := true } 0 none
      = (.error (.auth .TwoFactorRequired), []) :=
  (require_mfa_flow (fun _ => .ok false) (fun _ => [1]) []
      { id := 7, totp_enabled := true } 0 none rfl).1 rfl

/-- The ORDER BY key of `prune_excess_sessions`:
`last_used_at DESC, created_at DESC` — `a` may be listed no later than `b`. -/
def sessionMoreRecent (a b : Session) : Bool :=
  decide (b.last_used_at < a.last_used_at) ||
    (a.last_used_at == b.last_used_at && decide (b.created_at ≤ a.created_at))

def insertSorted (le : α → α → Bool) (x : α) : List α → List α
  | [] => [x]
  | y :: ys => if le x y then x :: y :: ys else y :: insertSorted le x ys

/-- The relational store's ORDER BY, modelled as an insertion sort by the
given precedence. -/
def insertionSort (le : α → α → Bool) : List α → List α
  | [] => []
  | x :: xs => insertSorted le x (insertionSort le xs)

theorem mem_insertSorted {le : α → α → Bool} (x : α) (l : List α) (a : α) :
    a ∈ insertSorted le x l ↔ a = x ∨ a ∈ l := by
  induction l with
  | nil => simp [insertSorted]
  | cons y ys ih =>
    simp only [insertSorted]
    split
    · simp [List.mem_cons]
    · simp only [List.mem_cons, ih]
      tauto

theorem mem_insertionSort {le : α → α → Bool} (l : List α) (a : α) :
    a ∈ insertionSort le l ↔ a ∈ l := by
  induction l with
  | nil => simp [insertionSort]
  | cons x xs ih =>
    simp [insertionSort, mem_insertSorted, ih, List.mem_cons]

/-- The `SELECT id ... ORDER BY last_used_at DESC, created_at DESC` of
`prune_excess_sessions` in `src/backend/src/auth/util.rs`. -/
def pruneOrderedIds (db : List Session) (target_user_id : Int) : List Int :=
  (insertionSort sessionMoreRecent
    (db.filter (fun s => s.user_id == target_user_id))).map Session.id

/-- `prune_excess_sessions` from `src/backend/src/auth/util.rs`: list the
user's session ids most-recently-active first, drop the explicitly kept
session from the candidates (lowering the allowance by one), and delete
every id beyond the allowance. Returns the table and the deleted-row
count. -/
def prune_excess_sessions (db : List Session) (target_user_id : Int)
    (keep_session_id : Option Int) : List Session × Nat :=
  let session_ids := pruneOrderedIds db target_user_id
  let pair :=
    match keep_session_id with
    | some keep_id =>
      (session_ids.filter (fun sid => !(sid == keep_id)),
        MAX_SESSIONS_PER_USER - 1)
    | none => (session_ids, MAX_SESSIONS_PER_USER)
  if pair.1.length ≤ pair.2 then (db, 0)
  else
    let to_delete := pair.1.drop pair.2
    if to_delete.isEmpty then (db, 0)
    else
      (db.filter (fun s => !(to_delete.contains s.id)),
        (db.filter (fun s => to_delete.contains s.id)).length)

theorem user_rows_le_of_ids_subset (l : List Session) (uid : Int)
    (cand : List Int) (hnodup : (l.map Session.id).Nodup)
    (hsub : ∀ s ∈ l, s.user_id = uid → s.id ∈ cand) :
    (l.filter (fun s => s.user_id == uid)).length ≤ cand.length := by
  have hsl : List.Sublist
      ((l.filter (fun s => s.user_id == uid)).map Session.id)
      (l.map Session.id) :=
    (List.filter_sublist l).map _
  have hnd : ((l.filter (fun s => s.user_id == uid)).map Session.id).Nodup :=
    hnodup.sublist hsl
  have hss : (l.filter (fun s => s.user_id == uid)).map Session.id ⊆ cand := by
    intro x hx
    rw [List.mem_map] at hx
    obtain ⟨s, hs, hsx⟩ := hx
    rw [List.mem_filter] at hs
    exact hsx ▸ hsub s hs.1 (by simpa using hs.2)
  have := (List.subperm_of_subset hnd hss).length_le
  rwa [List.length_map] at this

theorem prune_some_unfold (db : List Session) (uid keep : Int) :
    prune_excess_sessions db uid (some keep) =
      (let ids2 := (pruneOrderedIds db uid).filter (fun sid => !(sid == keep))
       if ids2.length ≤ MAX_SESSIONS_PER_USER - 1 then (db, 0)
       else
         let to_delete := ids2.drop (MAX_SESSIONS_PER_USER - 1)
         if to_delete.isEmpty then (db, 0)
         else
           (db.filter (fun s => !(to_delete.contains s.id)),
             (db.filter (fun s => to_delete.contains s.id)).length)) := rfl

def c9sess (i : Int) : Session :=
  { id := i, user_id := 1, token_hash := [], device_id := "d",
    device_name := none, ip_address := none, created_at := 0,
    refreshed_at := 0, last_used_at := i, last_authenticated_at := 0 }

def c9db : List Session :=
  [c9sess 1, c9sess 2, c9sess 3, c9sess 4, c9sess 5, c9sess 6, c9sess 7,
    c9sess 8, c9sess 9, c9sess 10, c9sess 11, c9sess 12]

/-- C9: pruning after creating a session orders the user's sessions by
`last_used_at` then `created_at` descending, never deletes the just-created
session, and leaves the user with at most `MAX_SESSIONS_PER_USER` (10)
sessions; concretely, pruning 12 sessions with strictly increasing
`last_used_at` (keeping the newest) leaves exactly the 10 most recently
used. -/
theorem prune_keeps_at_most_ten (db : List Session) (uid : Int) (keep : Int)
    (hnodup : (db.map Session.id).Nodup) :
    (∀ s ∈ db, s.id = keep →
      s ∈ (prune_excess_sessions db uid (some keep)).1) ∧
    ((prune_excess_sessions db uid (some keep)).1.filter
        (fun s => s.user_id == uid)).length ≤ MAX_SESSIONS_PER_USER ∧
    (prune_excess_sessions c9db 1 (some 12)).1.map Session.id
      = [3, 4, 5, 6, 7, 8, 9, 10, 11, 12] ∧
    (prune_excess_sessions c9db 1 (some 12)).2 = 2 := by
  have hc1 : (prune_excess_sessions c9db 1 (some 12)).1.map Session.id
      = [3, 4, 5, 6, 7, 8, 9, 10, 11, 12] := by decide
  have hc2 : (prune_excess_sessions c9db 1 (some 12)).2 = 2 := by decide
  have hmemids : ∀ s ∈ db, s.user_id = uid →
      s.id ∈ pruneOrderedIds db uid := by
    intro s hs hu
    simp only [pruneOrderedIds, List.mem_map]
    refine ⟨s, ?_, rfl⟩
    rw [mem_insertionSort, List.mem_filter]
    exact ⟨hs, by simp [hu]⟩
  have hmemids2 : ∀ s ∈ db, s.user_id = uid → s.id ≠ keep →
      s.id ∈ (pruneOrderedIds db uid).filter (fun sid => !(sid == keep)) := by
    intro s hs hu hne
    rw [List.mem_filter]
    exact ⟨hmemids s hs hu, by simp [hne]⟩
  have hkeepnot :
      keep ∉ (pruneOrderedIds db uid).filter (fun sid => !(sid == keep)) := by
    intro hk
    rw [List.mem_filter] at hk
    simp at hk
  by_cases hA : ((pruneOrderedIds db uid).filter
      (fun sid => !(sid == keep))).length ≤ MAX_SESSIONS_PER_USER - 1
  · have hpr : prune_excess_sessions db uid (some keep) = (db, 0) := by
      rw [prune_some_unfold]
      exact if_pos hA
    rw [hpr]
    refine ⟨fun s hs _ => hs, ?_, hc1, hc2⟩
    have hb := user_rows_le_of_ids_subset db uid
      (((pruneOrderedIds db uid).filter (fun sid => !(sid == keep)))
        ++ [keep]) hnodup ?_
    · refine hb.trans ?_
      rw [List.length_append, List.length_singleton]
      simp only [MAX_SESSIONS_PER_USER] at hA ⊢
      omega
    · intro s hs hu
      by_cases he : s.id = keep
      · rw [he]
        exact List.mem_append_right _ (by simp)
      · exact List.mem_append_left _ (hmemids2 s hs hu he)
  · have hlen : MAX_SESSIONS_PER_USER - 1 < ((pruneOrderedIds db uid).filter
        (fun sid => !(sid == keep))).length := by omega
    have hemp : (((pruneOrderedIds db uid).filter
        (fun sid => !(sid == keep))).drop
          (MAX_SESSIONS_PER_USER - 1)).isEmpty = false := by
      rw [List.isEmpty_eq_false_iff_exists_mem]
      have : 0 < (((pruneOrderedIds db uid).filter
          (fun sid => !(sid == keep))).drop
            (MAX_SESSIONS_PER_USER - 1)).length := by
        rw [List.length_drop]
        omega
      obtain ⟨a, ha⟩ := List.exists_mem_of_length_pos this
      exact ⟨a, ha⟩
    have hpr : prune_excess_sessions db uid (some keep) =
        (db.filter (fun s => !((((pruneOrderedIds db uid).filter
            (fun sid => !(sid == keep))).drop
              (MAX_SESSIONS_PER_USER - 1)).contains s.id)),
          (db.filter (fun s => (((pruneOrderedIds db uid).filter
            (fun sid => !(sid == keep))).drop
              (MAX_SESSIONS_PER_USER - 1)).contains s.id)).length) := by
      rw [prune_some_unfold]
      simp only []
      rw [if_neg (by omega), if_neg (by simp [hemp])]
    rw [hpr]
    have hkeepnotdel : keep ∉ ((pruneOrderedIds db uid).filter
        (fun sid => !(sid == keep))).drop (MAX_SESSIONS_PER_USER - 1) :=
      fun hk => hkeepnot (List.drop_subset _ _ hk)
    refine ⟨?_, ?_, hc1, hc2⟩
    · intro s hs hid
      rw [List.mem_filter]
      refine ⟨hs, ?_⟩
      rw [hid]
      simpa using hkeepnotdel
    · have hnodup' : ((db.filter (fun s => !((((pruneOrderedIds db uid).filter
          (fun sid => !(sid == keep))).drop
            (MAX_SESSIONS_PER_USER - 1)).contains s.id))).map
              Session.id).Nodup :=
        hnodup.sublist ((List.filter_sublist db).map _)
      have hb := user_rows_le_of_ids_subset _ uid
        ((((pruneOrderedIds db uid).filter (fun sid => !(sid == keep))).take
          (MAX_SESSIONS_PER_USER - 1)) ++ [keep]) hnodup' ?_
      · refine hb.trans ?_
        rw [List.length_append, List.length_singleton, List.length_take]
        simp only [MAX_SESSIONS_PER_USER]
        omega
      · intro s hs hu
        rw [List.mem_filter] at hs
        obtain ⟨hsdb, hnc⟩ := hs
        by_cases he : s.id = keep
        · rw [he]
          exact List.mem_append_right _ (by simp)
        · have h2 : s.id ∈ (pruneOrderedIds db uid).filter
              (fun sid => !(sid == keep)) := hmemids2 s hsdb hu he
          rw [← List.take_append_drop (MAX_SESSIONS_PER_USER - 1)
            ((pruneOrderedIds db uid).filter (fun sid => !(sid == keep)))]
            at h2
          rcases List.mem_append.mp h2 with h | h
          · exact List.mem_append_left _ h
          · exfalso
            simp only [Bool.not_eq_true'] at hnc
            exact absurd h (by simpa using hnc)

/-- Witness for C9: pruning the concrete 12-session table keeps the
just-created session 12 and leaves exactly 10 sessions for the user. -/
theorem prune_keeps_at_most_ten_witness :
    c9sess 12 ∈ (prune_excess_sessions c9db 1 (some 12)).1 ∧
    ((prune_excess_sessions c9db 1 (some 12)).1.filter
        (fun s => s.user_id == 1)).length ≤ MAX_SESSIONS_PER_USER := by
  have h := prune_keeps_at_most_ten c9db 1 12 (by decide)
  exact ⟨h.1 (c9sess 12) (by decide) rfl, h.2.1⟩
